import Mathlib

/-!
# Vehicle registration screen (`src/screens/RegisterCarScreen.js`)

A shallow embedding of the non-UI logic of the `RegisterCar` component:

* `years`          the list offered by the year picker (line 67);
* `pickDocument`   document selection into the `documents` state (lines 73-93);
* `uploadPdf`      upload of one document with its 60 s timeout (lines 100-169);
* `registerCar`    validation, sequential uploads, Firestore write (lines 175-225).

External collaborators (document picker, file system, storage task, Firestore,
clock, auth) are inputs of the model: every function receives what the
collaborator answers and returns the state change and the calls it makes.
`console.log` / `console.error` output is not modelled.
-/

namespace RegisterCar

/-! ## Data model -/

/-- The three document slots, in the order of the array `documentTypes` (line 183). -/
inductive DocType where
  | permisoCirculacion
  | soap
  | revisionTecnica
  deriving DecidableEq, Repr

/-- The JavaScript property name of a slot. -/
def DocType.key : DocType → String
  | .permisoCirculacion => "permisoCirculacion"
  | .soap => "soap"
  | .revisionTecnica => "revisionTecnica"

/-- Position of a slot in `documentTypes`. -/
def DocType.index : DocType → Nat
  | .permisoCirculacion => 0
  | .soap => 1
  | .revisionTecnica => 2

/-- The array literal of line 183. -/
def documentTypes : List DocType :=
  [.permisoCirculacion, .soap, .revisionTecnica]

/-- The object stored in a slot by `pickDocument`: `{ uri, name }`. -/
structure DocumentRef where
  uri : String
  name : String
  deriving DecidableEq, Repr

/-- The `documents` state (line 25): each slot is `null` or a `DocumentRef`. -/
structure Documents where
  permisoCirculacion : Option DocumentRef
  soap : Option DocumentRef
  revisionTecnica : Option DocumentRef
  deriving DecidableEq, Repr

/-- The initial state of line 25: three `null` slots. -/
def Documents.initial : Documents := ⟨none, none, none⟩

/-- Property read `documents[docType]`. -/
def Documents.get (d : Documents) : DocType → Option DocumentRef
  | .permisoCirculacion => d.permisoCirculacion
  | .soap => d.soap
  | .revisionTecnica => d.revisionTecnica

/-- The object spread `{ ...prev, [documentType]: v }`. -/
def Documents.set (d : Documents) (t : DocType) (v : Option DocumentRef) : Documents :=
  match t with
  | .permisoCirculacion => { d with permisoCirculacion := v }
  | .soap => { d with soap := v }
  | .revisionTecnica => { d with revisionTecnica := v }

/-- A JavaScript error value; only its `message` is read by the code (line 223). -/
structure JsError where
  message : String
  deriving DecidableEq, Repr

/-- The JavaScript values a form field can hold. `num` stands for an integral
Number (the year picker only produces integers). -/
inductive JsValue where
  | undefined
  | null
  | str (s : String)
  | num (n : Int)
  deriving DecidableEq, Repr

/-- JavaScript `ToBoolean`, as used by `!x` and `if (x)`. -/
def JsValue.truthy : JsValue → Bool
  | .undefined => false
  | .null => false
  | .str s => s ≠ ""
  | .num n => n ≠ 0

/-- A field that is missing (`undefined`, `null`) or the empty string. -/
def JsValue.isMissingOrEmpty : JsValue → Bool
  | .undefined => true
  | .null => true
  | .str s => s = ""
  | .num _ => false

/-! ## The year list (lines 66-67) -/

/-- The expression
`Array.from({ length: currentYear - 1899 }, (_, i) => currentYear - i)`.
A negative `length` is clamped to `0` by `Array.from`. -/
def years (currentYear : Int) : List Int :=
  (List.range (currentYear - 1899).toNat).map (fun (i : Nat) => currentYear - (i : Int))

/-! ## Document selection (lines 73-93) -/

/-- One entry of the array resolved by `DocumentPicker.pick`; the code reads
`uri` and `name` and ignores the rest. -/
structure PickedFile where
  uri : String
  name : String
  type : String
  size : Nat
  deriving DecidableEq, Repr

/-- How the promise of `DocumentPicker.pick` settles: it resolves with an array,
or rejects with an error for which `DocumentPicker.isCancel` answers `isCancel`. -/
inductive PickResult where
  | resolved (files : List PickedFile)
  | rejected (isCancel : Bool)
  deriving DecidableEq, Repr

/-- What the user sees. `okNavigatesTo` is the screen the single `OK` button of
the alert navigates to, when the alert has one (line 219). -/
structure AlertCall where
  title : String
  message : String
  okNavigatesTo : Option String
  deriving DecidableEq, Repr

/-- The function `pickDocument`: the new `documents` state (the updater of line 78
applied to `prev`) and the alert shown, if any. Reading `result[0].uri` on an
empty array throws a `TypeError`, which the `catch` treats like any other
non-cancel failure. -/
def pickDocument (documentType : DocType) (result : PickResult) (prev : Documents) :
    Documents × Option AlertCall :=
  match result with
  | .resolved (file :: _) =>
      (prev.set documentType (some { uri := file.uri, name := file.name }), none)
  | .resolved [] =>
      (prev, some ⟨"Error", "No se pudo seleccionar el documento", none⟩)
  | .rejected true => (prev, none)
  | .rejected false =>
      (prev, some ⟨"Error", "No se pudo seleccionar el documento", none⟩)

/-! ## Storage path (lines 108-109) -/

/-- The template literal rendering of a non-negative integer Number: its decimal
digits. -/
def numberToString (n : Nat) : String := Nat.repr n

/-- The template literal of line 109:
`vehicle_documents/<uid>/<timestamp>_<doc.name>`. -/
def storagePath (uid : String) (timestamp : Nat) (name : String) : String :=
  "vehicle_documents/" ++ uid ++ "/" ++ numberToString timestamp ++ "_" ++ name

/-! ## Upload of one document (lines 100-169) -/

/-- The error built on line 137. -/
def timeoutError : JsError := ⟨"Timeout: La subida tardó demasiado"⟩

/-- The delay passed to `setTimeout` on line 138, in milliseconds. -/
def uploadTimeoutMs : Nat := 60000

/-- What can happen once the promise of line 134 exists. `elapse ms` lets `ms`
milliseconds pass; the other events are the callbacks of the storage task
(`STATE_CHANGED` progress, error, completion) and the settling of
`reference.getDownloadURL()`. -/
inductive TaskEvent where
  | elapse (ms : Nat)
  | progress (bytesTransferred totalBytes : Nat)
  | error (e : JsError)
  | complete
  | urlResolved (url : String)
  | urlRejected (e : JsError)
  deriving DecidableEq, Repr

/-- How a promise of a URL settles. -/
inductive Settlement where
  | fulfilled (url : String)
  | rejected (e : JsError)
  deriving DecidableEq, Repr

/-- State of the promise of lines 134-164.
`clock`: milliseconds since `setTimeout` was called;
`timer`: deadline of the armed timeout, `none` once cleared or fired;
`cancelled`: `uploadTask.cancel()` has been called;
`urlRequests`: calls of `getDownloadURL` not settled yet;
`settled`: the value or error the promise settled with, and `settledAt` when. -/
structure RaceState where
  clock : Nat
  timer : Option Nat
  cancelled : Bool
  urlRequests : Nat
  settled : Option Settlement
  settledAt : Option Nat
  deriving DecidableEq, Repr

/-- State right after `setTimeout(..., 60000)` and `uploadTask.on(...)`. -/
def RaceState.initial : RaceState :=
  { clock := 0, timer := some uploadTimeoutMs, cancelled := false, urlRequests := 0,
    settled := none, settledAt := none }

/-- The functions `resolve` / `reject` of a promise: only the first call counts. -/
def RaceState.settle (s : RaceState) (r : Settlement) : RaceState :=
  match s.settled with
  | some _ => s
  | none => { s with settled := some r, settledAt := some s.clock }

/-- The timeout callback (lines 135-138): cancel the task, reject with the
timeout error. -/
def onTimeout (s : RaceState) : RaceState :=
  ({ s with timer := none, cancelled := true }).settle (.rejected timeoutError)

/-- The error callback (lines 146-150): clear the timer, reject with the error. -/
def onError (e : JsError) (s : RaceState) : RaceState :=
  ({ s with timer := none }).settle (.rejected e)

/-- The completion callback up to its `await` (lines 151-155): clear the timer,
request the download URL. -/
def onComplete (s : RaceState) : RaceState :=
  { s with timer := none, urlRequests := s.urlRequests + 1 }

/-- The completion callback after its `await` (lines 155-161): resolve with the
URL, or reject with the error of `getDownloadURL`. -/
def onUrl (r : Settlement) (s : RaceState) : RaceState :=
  if s.urlRequests = 0 then s
  else ({ s with urlRequests := s.urlRequests - 1 }).settle r

/-- Letting `ms` milliseconds pass: an armed timer whose deadline is reached
runs its callback at the deadline. -/
def elapse (ms : Nat) (s : RaceState) : RaceState :=
  match s.timer with
  | some deadline =>
      if deadline ≤ s.clock + ms then
        { onTimeout { s with clock := deadline } with clock := s.clock + ms }
      else { s with clock := s.clock + ms }
  | none => { s with clock := s.clock + ms }

/-- One event of the task, dispatched to its callback. The progress callback
(lines 142-145) only logs. -/
def step (s : RaceState) : TaskEvent → RaceState
  | .elapse ms => elapse ms s
  | .progress _ _ => s
  | .error e => onError e s
  | .complete => onComplete s
  | .urlResolved url => onUrl (.fulfilled url) s
  | .urlRejected e => onUrl (.rejected e) s

/-- The promise after a sequence of events. -/
def runRace (events : List TaskEvent) : RaceState :=
  events.foldl step RaceState.initial

/-- The events during which the transfer reports neither success nor error:
time passing and progress reports. -/
def TaskEvent.isQuiet : TaskEvent → Bool
  | .elapse _ => true
  | .progress _ _ => true
  | _ => false

/-- Total time, in milliseconds, that passes during a sequence of events. -/
def elapsed : List TaskEvent → Nat
  | [] => 0
  | .elapse ms :: rest => ms + elapsed rest
  | _ :: rest => elapsed rest

/-- What the collaborators answer during one call of `uploadPdf`. -/
structure UploadEnv where
  /-- The value of `Date.now()` on line 108. -/
  now : Nat
  /-- The test `Platform.OS === 'android'`. -/
  android : Bool
  /-- The constant `RNFS.CachesDirectoryPath`. -/
  cachesDirectoryPath : String
  /-- The call `RNFS.copyFile(src, dest)`. -/
  copyFile : String → String → Except JsError Unit
  /-- The call `RNFS.readFile(uri, 'base64')`. -/
  readFile : String → Except JsError String
  /-- The call `storage().ref(path).putString(data, ...)`: the task is created, or the
  call throws. -/
  putString : String → String → Except JsError Unit
  /-- The events following the creation of the promise of line 134. -/
  events : List TaskEvent

/-- What the collaborators answer during one call of `registerCar`. -/
structure Runtime where
  /-- The value of `auth().currentUser`: `none` for `null`, otherwise its `uid`. -/
  currentUser : Option String
  /-- The `TypeError` the engine throws for `auth().currentUser.uid` when
  `currentUser` is `null`. -/
  nullUidError : JsError
  /-- The collaborators of the upload of each slot. -/
  upload : DocType → UploadEnv
  /-- How the promise of `firestore().collection('vehicles').add(...)` settles:
  with the id of the new record, with an error, or never (`none`). -/
  addResult : Option (Except JsError String)

/-- How an awaited call of `uploadPdf` ends: it returns a URL or `null`, it
throws, or its promise never settles. -/
inductive Settled where
  | returned (url : Option String)
  | threw (e : JsError)
  | pending
  deriving DecidableEq, Repr

/-- What `await` gives for the promise returned on line 134: its URL, its
error, or nothing while it is not settled. -/
def awaited : Option Settlement → Settled
  | some (.fulfilled url) => .returned (some url)
  | some (.rejected e) => .threw e
  | none => .pending

/-- The observable facts of one call of `uploadPdf`. -/
structure UploadRun where
  /-- How the call ends. -/
  outcome : Settled
  /-- The path given to `storage().ref(...)`, when line 112 is reached. -/
  storagePath : Option String
  /-- The URI read on line 128, when that line is reached. -/
  fileUri : Option String
  /-- The promise of line 134, when the transfer has been started. -/
  race : Option RaceState
  deriving DecidableEq, Repr

/-- The function `uploadPdf`. -/
def uploadPdf (documents : Documents) (rt : Runtime) (documentType : DocType) : UploadRun :=
  match documents.get documentType with
  | none => { outcome := .returned none, storagePath := none, fileUri := none, race := none }
  | some doc =>
    match rt.currentUser with
    | none =>
        { outcome := .threw rt.nullUidError, storagePath := none, fileUri := none, race := none }
    | some uid =>
      let env := rt.upload documentType
      let timestamp := env.now
      let path := storagePath uid timestamp doc.name
      let staged : Except JsError String :=
        if env.android && "content://".data.isPrefixOf doc.uri.data then
          let destPath := env.cachesDirectoryPath ++ "/" ++ doc.name
          match env.copyFile doc.uri destPath with
          | .error e => .error e
          | .ok _ => .ok ("file://" ++ destPath)
        else .ok doc.uri
      match staged with
      | .error e =>
          { outcome := .threw e, storagePath := some path, fileUri := none, race := none }
      | .ok fileUri =>
        match env.readFile fileUri with
        | .error e =>
            { outcome := .threw e, storagePath := some path, fileUri := some fileUri,
              race := none }
        | .ok base64Data =>
          match env.putString path base64Data with
          | .error e =>
              { outcome := .threw e, storagePath := some path, fileUri := some fileUri,
                race := none }
          | .ok _ =>
            let final := runRace env.events
            { outcome := awaited final.settled, storagePath := some path,
              fileUri := some fileUri, race := some final }

/-! ## Registration (lines 175-225) -/

/-- The object `documentUrls` (line 182): a slot is `none` while it has no key. -/
structure DocumentUrls where
  permisoCirculacion : Option String
  soap : Option String
  revisionTecnica : Option String
  deriving DecidableEq, Repr

/-- The empty object `{}` of line 182. -/
def DocumentUrls.empty : DocumentUrls := ⟨none, none, none⟩

/-- Property read `documentUrls[docType]`. -/
def DocumentUrls.get (u : DocumentUrls) : DocType → Option String
  | .permisoCirculacion => u.permisoCirculacion
  | .soap => u.soap
  | .revisionTecnica => u.revisionTecnica

/-- The assignment `documentUrls[docType] = url` (line 190). -/
def DocumentUrls.set (u : DocumentUrls) (t : DocType) (url : String) : DocumentUrls :=
  match t with
  | .permisoCirculacion => { u with permisoCirculacion := some url }
  | .soap => { u with soap := some url }
  | .revisionTecnica => { u with revisionTecnica := some url }

/-- The sentinel `firestore.FieldValue.serverTimestamp()`. -/
inductive FieldValue where
  | serverTimestamp
  deriving DecidableEq, Repr

/-- The form state of lines 21-24. -/
structure Form where
  marca : JsValue
  modelo : JsValue
  anio : JsValue
  patente : JsValue
  deriving DecidableEq, Repr

/-- The object given to `add` (lines 204-212); `anio` is `none` for `NaN`, and
the three URL fields are the keys spread from `documentUrls`. -/
structure VehicleRecord where
  marca : JsValue
  modelo : JsValue
  anio : Option Int
  patente : JsValue
  documentUrls : DocumentUrls
  userId : String
  createdAt : FieldValue
  deriving DecidableEq, Repr

/-- JavaScript `ToString` on a form value. -/
def JsValue.toStr : JsValue → String
  | .undefined => "undefined"
  | .null => "null"
  | .str s => s
  | .num n => if n < 0 then "-" ++ Nat.repr n.natAbs else Nat.repr n.natAbs

/-- The characters skipped by `parseInt` at the start of its input
(`WhiteSpace` and `LineTerminator` of ECMAScript). -/
def isStrWhiteSpace (c : Char) : Bool :=
  let n := c.toNat
  n = 9 || n = 10 || n = 11 || n = 12 || n = 13 || n = 32 || n = 0xA0 || n = 0x1680 ||
  (0x2000 ≤ n && n ≤ 0x200A) || n = 0x2028 || n = 0x2029 || n = 0x202F || n = 0x205F ||
  n = 0x3000 || n = 0xFEFF

/-- The decimal digits `0` to `9`. -/
def isDecimalDigit (c : Char) : Bool :=
  48 ≤ c.toNat && c.toNat ≤ 57

/-- Value of a string of decimal digits, most significant first. -/
def digitsValue (cs : List Char) : Nat :=
  cs.foldl (fun acc c => acc * 10 + (c.toNat - 48)) 0

/-- The call `parseInt(v, 10)`: skip white space, read a sign, read the longest
run of decimal digits; `none` stands for `NaN`. -/
def parseInt (v : JsValue) : Option Int :=
  let s := v.toStr.data.dropWhile isStrWhiteSpace
  let signed : Bool × List Char :=
    match s with
    | c :: rest => if c = '-' then (true, rest) else if c = '+' then (false, rest) else (false, s)
    | [] => (false, s)
  let ds := signed.2.takeWhile isDecimalDigit
  if ds.isEmpty then none
  else if signed.1 then some (-(digitsValue ds : Int)) else some (digitsValue ds : Int)

/-- A call leaving `registerCar`, in the order the calls are made. An upload is
recorded with the way the awaited call ended. -/
inductive Effect where
  | uploadPdf (t : DocType) (outcome : Settled)
  | firestoreAdd (record : VehicleRecord)
  | alert (a : AlertCall)
  deriving DecidableEq, Repr

/-- The alert of line 178. -/
def validationAlert : AlertCall :=
  ⟨"Error", "Por favor, complete todos los campos obligatorios", none⟩

/-- The alert of line 196. -/
def uploadAlert (t : DocType) : AlertCall :=
  ⟨"Error", "No se pudo subir el documento " ++ t.key ++ ". Por favor, inténtelo de nuevo.",
    none⟩

/-- The alert of lines 216-220. -/
def successAlert : AlertCall :=
  ⟨"Éxito", "Vehículo registrado correctamente", some "ReadyUse"⟩

/-- The alert of line 223. -/
def failureAlert (e : JsError) : AlertCall :=
  ⟨"Error", "No se pudo registrar el vehículo: " ++ e.message, none⟩

/-- Lines 189-193: `if (url) documentUrls[docType] = url`; `null` and the
empty string are falsy. -/
def storeUrl (urls : DocumentUrls) (docType : DocType) (url : Option String) : DocumentUrls :=
  match url with
  | some u => if u ≠ "" then urls.set docType u else urls
  | none => urls

/-- The `for` loop of lines 185-202 over the remaining slots: the calls made and
`documentUrls` when the loop runs to its end, `none` when it is left by the
`return` of line 197 or stays suspended at the `await` of line 188. -/
def uploadLoop (documents : Documents) (rt : Runtime) :
    List DocType → DocumentUrls → List Effect × Option DocumentUrls
  | [], urls => ([], some urls)
  | docType :: rest, urls =>
    match documents.get docType with
    | some _ =>
      match (uploadPdf documents rt docType).outcome with
      | .returned url =>
          let r := uploadLoop documents rt rest (storeUrl urls docType url)
          (.uploadPdf docType (.returned url) :: r.1, r.2)
      | .threw e => ([.uploadPdf docType (.threw e), .alert (uploadAlert docType)], none)
      | .pending => ([.uploadPdf docType .pending], none)
    | none => uploadLoop documents rt rest urls

/-- The function `registerCar`: the calls it makes, in order. -/
def registerCar (form : Form) (documents : Documents) (rt : Runtime) : List Effect :=
  if !form.marca.truthy || !form.modelo.truthy || !form.anio.truthy || !form.patente.truthy then
    [.alert validationAlert]
  else
    match uploadLoop documents rt documentTypes DocumentUrls.empty with
    | (effects, none) => effects
    | (effects, some documentUrls) =>
      match rt.currentUser with
      | none => effects ++ [.alert (failureAlert rt.nullUidError)]
      | some uid =>
        let record : VehicleRecord :=
          { marca := form.marca, modelo := form.modelo, anio := parseInt form.anio,
            patente := form.patente, documentUrls := documentUrls, userId := uid,
            createdAt := .serverTimestamp }
        match rt.addResult with
        | some (.ok _) => effects ++ [.firestoreAdd record, .alert successAlert]
        | some (.error e) => effects ++ [.firestoreAdd record, .alert (failureAlert e)]
        | none => effects ++ [.firestoreAdd record]

/-! ## Vocabulary for the call sequence of `registerCar` -/

/-- The effect is a call of `uploadPdf`. -/
def Effect.isUpload : Effect → Bool
  | .uploadPdf _ _ => true
  | _ => false

/-- The effect is a call of `firestore().collection('vehicles').add`. -/
def Effect.isAdd : Effect → Bool
  | .firestoreAdd _ => true
  | _ => false

/-- The slots holding a document, in the order of `documentTypes`. -/
def selected (documents : Documents) : List DocType :=
  documentTypes.filter (fun t => (documents.get t).isSome)

/-- The call of `uploadPdf` for a slot, with the way it ends. -/
def uploadCall (documents : Documents) (rt : Runtime) (t : DocType) : Effect :=
  .uploadPdf t (uploadPdf documents rt t).outcome

/-- The awaited call of `uploadPdf` for the slot returns (a URL or `null`). -/
def returns (documents : Documents) (rt : Runtime) (t : DocType) : Bool :=
  match (uploadPdf documents rt t).outcome with
  | .returned _ => true
  | _ => false

/-- What the `catch` of lines 194-198 adds after an upload that did not return:
the alert when the upload threw, nothing while the upload is pending. -/
def abortTail (documents : Documents) (rt : Runtime) (t : DocType) : List Effect :=
  match (uploadPdf documents rt t).outcome with
  | .threw _ => [.alert (uploadAlert t)]
  | _ => []

/-- The guard of line 177 lets the form through. -/
def Form.isValid (form : Form) : Bool :=
  form.marca.truthy && form.modelo.truthy && form.anio.truthy && form.patente.truthy

/-- The URL the loop stores for a slot (lines 186-190): the one `uploadPdf`
returns for a selected document, when it is a non-empty string. -/
def collected (documents : Documents) (rt : Runtime) (t : DocType) : Option String :=
  match documents.get t with
  | none => none
  | some _ =>
    match (uploadPdf documents rt t).outcome with
    | .returned (some u) => if u ≠ "" then some u else none
    | _ => none

/-- The calls that follow the loop when it ran to its end with `documentUrls`
(lines 204-224). -/
def afterLoop (form : Form) (rt : Runtime) (documentUrls : DocumentUrls) : List Effect :=
  match rt.currentUser with
  | none => [.alert (failureAlert rt.nullUidError)]
  | some uid =>
    .firestoreAdd
      { marca := form.marca, modelo := form.modelo, anio := parseInt form.anio,
        patente := form.patente, documentUrls := documentUrls, userId := uid,
        createdAt := .serverTimestamp } ::
    (match rt.addResult with
     | some (.ok _) => [.alert successAlert]
     | some (.error e) => [.alert (failureAlert e)]
     | none => [])

/-! ## Sample inputs -/

/-- A document reference used in the examples. -/
def sampleDoc : DocumentRef := ⟨"file:///docs/soap.pdf", "soap.pdf"⟩

/-- Only the `soap` slot holds a document. -/
def soapOnly : Documents := ⟨none, some sampleDoc, none⟩

/-- All three slots hold (the same) document. -/
def allThree : Documents := ⟨some sampleDoc, some sampleDoc, some sampleDoc⟩

/-- An environment in which every upload sees the given events and reads the
given clock value, the owner is `u1` and the Firestore write succeeds. -/
def sampleRuntime (now : Nat) (events : List TaskEvent) : Runtime :=
  { currentUser := some "u1"
    nullUidError := ⟨"null has no properties"⟩
    upload := fun _ =>
      { now := now, android := false, cachesDirectoryPath := "/cache",
        copyFile := fun _ _ => .ok (), readFile := fun _ => .ok "JVBERi0=",
        putString := fun _ _ => .ok (), events := events }
    addResult := some (.ok "vehicle1") }

/-- An environment in which the upload of `permisoCirculacion` completes with a
URL, the transfer of `soap` stays silent for 60 s, and the upload of
`revisionTecnica` would complete with a URL. -/
def soapTimesOut : Runtime :=
  { sampleRuntime 1700000000000 [] with
    upload := fun t =>
      { now := 1700000000000 + t.index, android := false, cachesDirectoryPath := "/cache",
        copyFile := fun _ _ => .ok (), readFile := fun _ => .ok "JVBERi0=",
        putString := fun _ _ => .ok (),
        events :=
          match t with
          | .permisoCirculacion => [.elapse 1200, .complete, .urlResolved "https://store/p"]
          | .soap => [.progress 0 100, .elapse 60000]
          | .revisionTecnica => [.elapse 900, .complete, .urlResolved "https://store/r"] } }

/-- The form of the scenario of the specification. -/
def sampleForm : Form := ⟨.str "Subaru", .str "Impreza", .num 2023, .str "ABCD12"⟩

/-- The record of the scenario with one document for `soap` uploaded to
`https://store/x`. -/
def soapRecord : VehicleRecord :=
  { marca := .str "Subaru", modelo := .str "Impreza", anio := some 2023,
    patente := .str "ABCD12", documentUrls := ⟨none, some "https://store/x", none⟩,
    userId := "u1", createdAt := .serverTimestamp }

end RegisterCar

namespace RegisterCar

/-! ## The year list -/

theorem years_length (Y : Int) : (years Y).length = (Y - 1899).toNat := by
  simp [years]

theorem years_getElem? (Y : Int) (i : Nat) (h : i < (Y - 1899).toNat) :
    (years Y)[i]? = some (Y - (i : Int)) := by
  simp [years, List.getElem?_map, List.getElem?_range h]

theorem mem_years (Y y : Int) : y ∈ years Y ↔ 1900 ≤ y ∧ y ≤ Y := by
  simp only [years, List.mem_map, List.mem_range]
  constructor
  · rintro ⟨i, hi, rfl⟩
    omega
  · rintro ⟨h1, h2⟩
    exact ⟨(Y - y).toNat, by omega, by omega⟩

theorem years_nodup (Y : Int) : (years Y).Nodup := by
  unfold years
  refine List.Nodup.map ?_ (List.nodup_range _)
  intro a b hab
  simp only at hab
  omega

/-- C9. For a current year `Y ≥ 1900` the year list has `Y - 1899` entries, its
entry at position `i` is `Y - i` (so it starts at `Y`, goes down in steps of one
and ends at `1900`), it holds exactly the integers from `1900` to `Y`, and it
holds none of them twice. -/
theorem years_spec (Y : Int) (hY : 1900 ≤ Y) :
    ((years Y).length : Int) = Y - 1899 ∧
    (years Y).head? = some Y ∧
    (years Y).getLast? = some 1900 ∧
    (∀ i : Nat, i < (years Y).length → (years Y)[i]? = some (Y - (i : Int))) ∧
    (∀ i : Nat, i + 1 < (years Y).length →
      ∃ a b, (years Y)[i]? = some a ∧ (years Y)[i + 1]? = some b ∧ b = a - 1) ∧
    (∀ y : Int, y ∈ years Y ↔ 1900 ≤ y ∧ y ≤ Y) ∧
    (∀ y : Int, 1900 ≤ y → y ≤ Y → (years Y).count y = 1) ∧
    (years Y).Nodup := by
  have hlen := years_length Y
  refine ⟨by rw [hlen]; omega, ?_, ?_, ?_, ?_, mem_years Y, ?_, years_nodup Y⟩
  · rw [List.head?_eq_getElem?, years_getElem? Y 0 (by omega)]
    simp
  · rw [List.getLast?_eq_getElem?, hlen, years_getElem? Y _ (by omega)]
    congr 1
    omega
  · intro i hi
    exact years_getElem? Y i (by omega)
  · intro i hi
    refine ⟨Y - (i : Int), Y - ((i + 1 : Nat) : Int), years_getElem? Y i (by omega),
      years_getElem? Y (i + 1) (by omega), ?_⟩
    push_cast
    omega
  · intro y h1 h2
    exact List.count_eq_one_of_mem (years_nodup Y) ((mem_years Y y).2 ⟨h1, h2⟩)

/-- The year list of 2024. -/
theorem years_spec_witness :
    (1900 : Int) ≤ 2024 ∧
    (((years 2024).length : Int) = 2024 - 1899 ∧
    (years 2024).head? = some 2024 ∧
    (years 2024).getLast? = some 1900 ∧
    (∀ i : Nat, i < (years 2024).length → (years 2024)[i]? = some (2024 - (i : Int))) ∧
    (∀ i : Nat, i + 1 < (years 2024).length →
      ∃ a b, (years 2024)[i]? = some a ∧ (years 2024)[i + 1]? = some b ∧ b = a - 1) ∧
    (∀ y : Int, y ∈ years 2024 ↔ 1900 ≤ y ∧ y ≤ 2024) ∧
    (∀ y : Int, 1900 ≤ y → y ≤ 2024 → (years 2024).count y = 1) ∧
    (years 2024).Nodup) :=
  ⟨by decide, years_spec 2024 (by decide)⟩

/-! ## Decimal rendering and the storage path -/

theorem digitChar_spec (d : Nat) (h : d < 10) :
    isDecimalDigit (Nat.digitChar d) = true ∧ (Nat.digitChar d).toNat - 48 = d := by
  interval_cases d <;> decide

theorem digitsValue_snoc (pre : List Char) (c : Char) :
    digitsValue (pre ++ [c]) = digitsValue pre * 10 + (c.toNat - 48) := by
  simp [digitsValue, List.foldl_append]

/-- With enough fuel, `Nat.toDigitsCore 10` puts in front of its accumulator a
non-empty run of decimal digits whose value is the number rendered. -/
theorem toDigitsCore_spec (fuel : Nat) : ∀ (n : Nat) (ds : List Char), n < fuel →
    ∃ pre : List Char, Nat.toDigitsCore 10 fuel n ds = pre ++ ds ∧ pre ≠ [] ∧
      (∀ c ∈ pre, isDecimalDigit c = true) ∧ digitsValue pre = n := by
  induction fuel with
  | zero => intro n ds h; omega
  | succ fuel ih =>
    intro n ds h
    have hd := digitChar_spec (n % 10) (Nat.mod_lt _ (by decide))
    by_cases h0 : n / 10 = 0
    · refine ⟨[Nat.digitChar (n % 10)], ?_, by simp, ?_, ?_⟩
      · simp [Nat.toDigitsCore, h0]
      · intro c hc
        rw [List.mem_singleton] at hc
        rw [hc]
        exact hd.1
      · have := digitsValue_snoc [] (Nat.digitChar (n % 10))
        simp only [List.nil_append] at this
        rw [this, hd.2]
        simp [digitsValue]
        omega
    · obtain ⟨pre, hpre, _, hdig, hval⟩ :=
        ih (n / 10) (Nat.digitChar (n % 10) :: ds) (by omega)
      refine ⟨pre ++ [Nat.digitChar (n % 10)], ?_, by simp, ?_, ?_⟩
      · simp [Nat.toDigitsCore, h0, hpre]
      · intro c hc
        rcases List.mem_append.1 hc with hc | hc
        · exact hdig c hc
        · rw [List.mem_singleton] at hc
          rw [hc]
          exact hd.1
      · rw [digitsValue_snoc, hval, hd.2]
        omega

/-- The decimal rendering of `n` is a non-empty run of digits of value `n`. -/
theorem numberToString_spec (n : Nat) :
    (numberToString n).data ≠ [] ∧ (∀ c ∈ (numberToString n).data, isDecimalDigit c = true) ∧
      digitsValue (numberToString n).data = n := by
  obtain ⟨pre, hpre, hne, hdig, hval⟩ := toDigitsCore_spec (n + 1) n [] (by omega)
  have : (numberToString n).data = pre := by
    simp [numberToString, Nat.repr, Nat.toDigits, List.asString, hpre]
  rw [this]
  exact ⟨hne, hdig, hval⟩

theorem numberToString_injective (a b : Nat) (h : numberToString a = numberToString b) :
    a = b := by
  rw [← (numberToString_spec a).2.2, ← (numberToString_spec b).2.2, h]

/-- Two lists that agree after being cut at the first occurrence of `sep`. -/
theorem append_sep_inj (sep : Char) : ∀ (l1 l2 r1 r2 : List Char),
    sep ∉ l1 → sep ∉ l2 → l1 ++ sep :: r1 = l2 ++ sep :: r2 → l1 = l2 ∧ r1 = r2 := by
  intro l1
  induction l1 with
  | nil =>
    intro l2 r1 r2 _ h2 h
    cases l2 with
    | nil => simpa using h
    | cons b l2 =>
      simp only [List.nil_append, List.cons_append, List.cons.injEq] at h
      exact absurd (h.1 ▸ List.mem_cons_self _ _) h2
  | cons a l1 ih =>
    intro l2 r1 r2 h1 h2 h
    cases l2 with
    | nil =>
      simp only [List.nil_append, List.cons_append, List.cons.injEq] at h
      exact absurd (h.1 ▸ List.mem_cons_self _ _) h1
    | cons b l2 =>
      simp only [List.cons_append, List.cons.injEq] at h
      obtain ⟨hl, hr⟩ := ih l2 r1 r2 (fun hm => h1 (List.mem_cons_of_mem _ hm))
        (fun hm => h2 (List.mem_cons_of_mem _ hm)) h.2
      exact ⟨by rw [h.1, hl], hr⟩

theorem underscore_not_mem_numberToString (n : Nat) : '_' ∉ (numberToString n).data := by
  intro h
  have := (numberToString_spec n).2.1 _ h
  exact absurd this (by decide)

theorem storagePath_data (uid : String) (t : Nat) (name : String) :
    (storagePath uid t name).data
      = ("vehicle_documents/".data ++ uid.data ++ "/".data) ++
          ((numberToString t).data ++ '_' :: name.data) := by
  simp [storagePath, String.data_append]

/-- C10. For a fixed owner id the storage path determines the timestamp and the
display name: two paths are equal exactly when both timestamps and both names
are equal, whatever characters the names hold. -/
theorem storagePath_injective (uid : String) (t1 t2 : Nat) (n1 n2 : String) :
    storagePath uid t1 n1 = storagePath uid t2 n2 ↔ t1 = t2 ∧ n1 = n2 := by
  constructor
  · intro h
    have hd := congrArg String.data h
    rw [storagePath_data, storagePath_data] at hd
    have hsplit := append_sep_inj '_' _ _ _ _ (underscore_not_mem_numberToString t1)
      (underscore_not_mem_numberToString t2) (List.append_cancel_left hd)
    exact ⟨numberToString_injective t1 t2 (String.ext hsplit.1), String.ext hsplit.2⟩
  · rintro ⟨rfl, rfl⟩
    rfl

/-! ## The upload race -/

/-- A settled promise whose timer is gone is not changed by later events. -/
theorem step_settled (s : RaceState) (ev : TaskEvent) (r : Settlement)
    (hs : s.settled = some r) (ht : s.timer = none) :
    (step s ev).settled = some r ∧ (step s ev).settledAt = s.settledAt ∧
      (step s ev).cancelled = s.cancelled ∧ (step s ev).timer = none := by
  cases ev <;>
    simp [step, elapse, onError, onComplete, onUrl, RaceState.settle, hs, ht]
  all_goals split <;> simp [hs, ht]

theorem foldl_step_settled (evs : List TaskEvent) : ∀ (s : RaceState) (r : Settlement),
    s.settled = some r → s.timer = none →
    (evs.foldl step s).settled = some r ∧ (evs.foldl step s).settledAt = s.settledAt ∧
      (evs.foldl step s).cancelled = s.cancelled ∧ (evs.foldl step s).timer = none := by
  induction evs with
  | nil => intro s r hs ht; exact ⟨hs, rfl, rfl, ht⟩
  | cons ev evs ih =>
    intro s r hs ht
    obtain ⟨h1, h2, h3, h4⟩ := step_settled s ev r hs ht
    obtain ⟨k1, k2, k3, k4⟩ := ih (step s ev) r h1 h4
    exact ⟨k1, k2.trans h2, k3.trans h3, k4⟩

/-- While the deadline is not reached, quiet events only move the clock. -/
theorem foldl_step_quiet_armed (evs : List TaskEvent) : ∀ (s : RaceState) (d : Nat),
    (∀ ev ∈ evs, ev.isQuiet = true) → s.timer = some d → s.clock + elapsed evs < d →
    evs.foldl step s = { s with clock := s.clock + elapsed evs } := by
  induction evs with
  | nil => intro s d _ _ _; simp [elapsed]
  | cons ev evs ih =>
    intro s d hq ht hlt
    have hq1 : ∀ ev1 ∈ evs, ev1.isQuiet = true := fun ev1 h => hq ev1 (List.mem_cons_of_mem _ h)
    have hq0 := hq ev (List.mem_cons_self _ _)
    cases ev with
    | elapse ms =>
      simp only [elapsed] at hlt ⊢
      have hstep : step s (.elapse ms) = { s with clock := s.clock + ms } := by
        simp only [step, elapse, ht]
        rw [if_neg (by omega)]
      rw [List.foldl_cons, hstep, ih _ d hq1 (by simpa using ht) (by simpa using (by omega))]
      simp [Nat.add_assoc]
    | progress a b =>
      simp only [elapsed] at hlt ⊢
      rw [List.foldl_cons]
      exact ih s d hq1 ht hlt
    | error e => simp [TaskEvent.isQuiet] at hq0
    | complete => simp [TaskEvent.isQuiet] at hq0
    | urlResolved u => simp [TaskEvent.isQuiet] at hq0
    | urlRejected e => simp [TaskEvent.isQuiet] at hq0

/-- Once the timer is cleared, quiet events only move the clock. -/
theorem foldl_step_quiet_cleared (evs : List TaskEvent) : ∀ (s : RaceState),
    (∀ ev ∈ evs, ev.isQuiet = true) → s.timer = none →
    evs.foldl step s = { s with clock := s.clock + elapsed evs } := by
  induction evs with
  | nil => intro s _ _; simp [elapsed]
  | cons ev evs ih =>
    intro s hq ht
    have hq1 : ∀ ev1 ∈ evs, ev1.isQuiet = true := fun ev1 h => hq ev1 (List.mem_cons_of_mem _ h)
    have hq0 := hq ev (List.mem_cons_self _ _)
    cases ev with
    | elapse ms =>
      have hstep : step s (.elapse ms) = { s with clock := s.clock + ms } := by
        simp only [step, elapse, ht]
      rw [List.foldl_cons, hstep, ih _ hq1 (by simpa using ht)]
      simp [elapsed, Nat.add_assoc]
    | progress a b =>
      simp only [elapsed]
      rw [List.foldl_cons]
      exact ih s hq1 ht
    | error e => simp [TaskEvent.isQuiet] at hq0
    | complete => simp [TaskEvent.isQuiet] at hq0
    | urlResolved u => simp [TaskEvent.isQuiet] at hq0
    | urlRejected e => simp [TaskEvent.isQuiet] at hq0

/-- Quiet events that reach the deadline of an armed timer make the promise
reject with the timeout error at the deadline, after cancelling the task. -/
theorem foldl_step_timeout (evs : List TaskEvent) : ∀ (s : RaceState) (d : Nat),
    (∀ ev ∈ evs, ev.isQuiet = true) → s.timer = some d → s.settled = none →
    s.clock < d → d ≤ s.clock + elapsed evs →
    (evs.foldl step s).settled = some (.rejected timeoutError) ∧
      (evs.foldl step s).settledAt = some d ∧ (evs.foldl step s).cancelled = true ∧
      (evs.foldl step s).timer = none := by
  induction evs with
  | nil => intro s d _ _ _ h1 h2; simp [elapsed] at h2; omega
  | cons ev evs ih =>
    intro s d hq ht hs hlt hge
    have hq1 : ∀ ev1 ∈ evs, ev1.isQuiet = true := fun ev1 h => hq ev1 (List.mem_cons_of_mem _ h)
    have hq0 := hq ev (List.mem_cons_self _ _)
    cases ev with
    | elapse ms =>
      simp only [elapsed] at hge
      rw [List.foldl_cons]
      by_cases hfire : d ≤ s.clock + ms
      · have hstep : step s (.elapse ms)
            = { s with clock := s.clock + ms, timer := none, cancelled := true,
                       settled := some (.rejected timeoutError), settledAt := some d } := by
          simp only [step, elapse, ht]
          rw [if_pos hfire]
          simp [onTimeout, RaceState.settle, hs]
        obtain ⟨k1, k2, k3, k4⟩ := foldl_step_settled evs (step s (.elapse ms))
          (.rejected timeoutError) (by rw [hstep]) (by rw [hstep])
        refine ⟨k1, ?_, ?_, k4⟩
        · rw [k2, hstep]
        · rw [k3, hstep]
      · have hstep : step s (.elapse ms) = { s with clock := s.clock + ms } := by
          simp only [step, elapse, ht]
          rw [if_neg hfire]
        rw [hstep]
        exact ih _ d hq1 (by simpa using ht) (by simpa using hs) (by simpa using (by omega))
          (by simpa using (by omega))
    | progress a b =>
      simp only [elapsed] at hge
      rw [List.foldl_cons]
      exact ih s d hq1 ht hs hlt hge
    | error e => simp [TaskEvent.isQuiet] at hq0
    | complete => simp [TaskEvent.isQuiet] at hq0
    | urlResolved u => simp [TaskEvent.isQuiet] at hq0
    | urlRejected e => simp [TaskEvent.isQuiet] at hq0

theorem runRace_append (evs rest : List TaskEvent) :
    runRace (evs ++ rest) = rest.foldl step (runRace evs) := by
  simp [runRace, List.foldl_append]

theorem runRace_quiet (quiet : List TaskEvent) (hq : ∀ ev ∈ quiet, ev.isQuiet = true)
    (hlt : elapsed quiet < uploadTimeoutMs) :
    runRace quiet = { RaceState.initial with clock := elapsed quiet } := by
  have := foldl_step_quiet_armed quiet RaceState.initial uploadTimeoutMs hq rfl
    (by simpa [RaceState.initial] using hlt)
  simpa [runRace, RaceState.initial] using this

theorem runRace_error (quiet rest : List TaskEvent) (e : JsError)
    (hq : ∀ ev ∈ quiet, ev.isQuiet = true) (hlt : elapsed quiet < uploadTimeoutMs) :
    (runRace (quiet ++ .error e :: rest)).settled = some (.rejected e) ∧
      (runRace (quiet ++ .error e :: rest)).settledAt = some (elapsed quiet) ∧
      (runRace (quiet ++ .error e :: rest)).cancelled = false ∧
      (runRace (quiet ++ .error e :: rest)).timer = none := by
  rw [runRace_append, List.foldl_cons, runRace_quiet quiet hq hlt]
  obtain ⟨k1, k2, k3, k4⟩ := foldl_step_settled rest
    (step { RaceState.initial with clock := elapsed quiet } (.error e)) (.rejected e)
    (by simp [step, onError, RaceState.settle, RaceState.initial])
    (by simp [step, onError, RaceState.settle, RaceState.initial])
  refine ⟨k1, ?_, ?_, k4⟩
  · rw [k2]; simp [step, onError, RaceState.settle, RaceState.initial]
  · rw [k3]; simp [step, onError, RaceState.settle, RaceState.initial]

theorem runRace_complete (quiet wait rest : List TaskEvent) (r : Settlement) (ev : TaskEvent)
    (hev : ∀ s, step s ev = onUrl r s)
    (hq : ∀ ev ∈ quiet, ev.isQuiet = true) (hlt : elapsed quiet < uploadTimeoutMs)
    (hw : ∀ ev ∈ wait, ev.isQuiet = true) :
    (runRace (quiet ++ .complete :: (wait ++ ev :: rest))).settled = some r ∧
      (runRace (quiet ++ .complete :: (wait ++ ev :: rest))).settledAt
        = some (elapsed quiet + elapsed wait) ∧
      (runRace (quiet ++ .complete :: (wait ++ ev :: rest))).cancelled = false ∧
      (runRace (quiet ++ .complete :: (wait ++ ev :: rest))).timer = none := by
  rw [runRace_append, List.foldl_cons, runRace_quiet quiet hq hlt, List.foldl_append,
    List.foldl_cons,
    foldl_step_quiet_cleared wait _ hw (by simp [step, onComplete, RaceState.initial]), hev]
  obtain ⟨k1, k2, k3, k4⟩ := foldl_step_settled rest
    (onUrl r { step { RaceState.initial with clock := elapsed quiet } .complete with
      clock := (step { RaceState.initial with clock := elapsed quiet } .complete).clock
        + elapsed wait }) r
    (by simp [step, onComplete, onUrl, RaceState.settle, RaceState.initial])
    (by simp [step, onComplete, onUrl, RaceState.settle, RaceState.initial])
  refine ⟨k1, ?_, ?_, k4⟩
  · rw [k2]; simp [step, onComplete, onUrl, RaceState.settle, RaceState.initial]
  · rw [k3]; simp [step, onComplete, onUrl, RaceState.settle, RaceState.initial]

theorem runRace_timeout (quiet rest : List TaskEvent)
    (hq : ∀ ev ∈ quiet, ev.isQuiet = true) (hge : uploadTimeoutMs ≤ elapsed quiet) :
    (runRace (quiet ++ rest)).settled = some (.rejected timeoutError) ∧
      (runRace (quiet ++ rest)).settledAt = some uploadTimeoutMs ∧
      (runRace (quiet ++ rest)).cancelled = true ∧
      (runRace (quiet ++ rest)).timer = none := by
  obtain ⟨h1, h2, h3, h4⟩ := foldl_step_timeout quiet RaceState.initial uploadTimeoutMs hq rfl rfl
    (by decide) (by simpa [RaceState.initial] using hge)
  rw [runRace_append]
  obtain ⟨k1, k2, k3, k4⟩ := foldl_step_settled rest (runRace quiet) _ h1 h4
  exact ⟨k1, k2.trans h2, k3.trans h3, k4⟩

/-- An upload whose transfer was started has the promise of its events, and
ends the way that promise settles. -/
theorem uploadPdf_race (documents : Documents) (rt : Runtime) (T : DocType) (st : RaceState)
    (h : (uploadPdf documents rt T).race = some st) :
    st = runRace (rt.upload T).events ∧
      (uploadPdf documents rt T).outcome = awaited st.settled := by
  unfold uploadPdf at h ⊢
  split at h
  · simp at h
  · split at h
    · simp at h
    · simp only at h ⊢
      split at h
      · simp at h
      · split at h
        · simp at h
        · split at h
          · simp at h
          · simp only [Option.some.injEq] at h
            subst h
            simp

/-- C6. For an upload whose transfer has started, the first of three events
decides the result. Error first (before 60000 ms): the timer is cleared, the task
is not cancelled and `uploadPdf` throws that error. Completion first: the timer is
cleared and `uploadPdf` returns the URL that `getDownloadURL` gives, or throws
the error of `getDownloadURL`. Neither during 60000 ms: the task is cancelled
and `uploadPdf` throws the timeout error, settled at 60000 ms; before that
instant a silent transfer leaves the call pending and the task not cancelled. -/
theorem uploadPdf_race_spec (documents : Documents) (rt : Runtime) (T : DocType)
    (st : RaceState) (h : (uploadPdf documents rt T).race = some st) :
    (∀ (quiet rest : List TaskEvent) (e : JsError),
      (rt.upload T).events = quiet ++ .error e :: rest →
      (∀ ev ∈ quiet, ev.isQuiet = true) → elapsed quiet < 60000 →
      (uploadPdf documents rt T).outcome = .threw e ∧ st.timer = none ∧
        st.cancelled = false) ∧
    (∀ (quiet wait rest : List TaskEvent) (url : String),
      (rt.upload T).events = quiet ++ .complete :: (wait ++ .urlResolved url :: rest) →
      (∀ ev ∈ quiet, ev.isQuiet = true) → elapsed quiet < 60000 →
      (∀ ev ∈ wait, ev.isQuiet = true) →
      (uploadPdf documents rt T).outcome = .returned (some url) ∧ st.timer = none ∧
        st.cancelled = false) ∧
    (∀ (quiet wait rest : List TaskEvent) (e : JsError),
      (rt.upload T).events = quiet ++ .complete :: (wait ++ .urlRejected e :: rest) →
      (∀ ev ∈ quiet, ev.isQuiet = true) → elapsed quiet < 60000 →
      (∀ ev ∈ wait, ev.isQuiet = true) →
      (uploadPdf documents rt T).outcome = .threw e ∧ st.timer = none ∧
        st.cancelled = false) ∧
    (∀ (quiet rest : List TaskEvent),
      (rt.upload T).events = quiet ++ rest →
      (∀ ev ∈ quiet, ev.isQuiet = true) → 60000 ≤ elapsed quiet →
      (uploadPdf documents rt T).outcome = .threw timeoutError ∧ st.cancelled = true ∧
        st.settledAt = some 60000) ∧
    ((∀ ev ∈ (rt.upload T).events, ev.isQuiet = true) →
      elapsed (rt.upload T).events < 60000 →
      (uploadPdf documents rt T).outcome = .pending ∧ st.cancelled = false ∧
        st.timer = some 60000) := by
  obtain ⟨hst, hout⟩ := uploadPdf_race documents rt T st h
  refine ⟨?_, ?_, ?_, ?_, ?_⟩
  · intro quiet rest e hev hq hlt
    obtain ⟨k1, _, k3, k4⟩ := runRace_error quiet rest e hq hlt
    rw [hout, hst, hev, k1]
    exact ⟨rfl, k4, k3⟩
  · intro quiet wait rest url hev hq hlt hw
    obtain ⟨k1, _, k3, k4⟩ := runRace_complete quiet wait rest (.fulfilled url)
      (.urlResolved url) (fun _ => rfl) hq hlt hw
    rw [hout, hst, hev, k1]
    exact ⟨rfl, k4, k3⟩
  · intro quiet wait rest e hev hq hlt hw
    obtain ⟨k1, _, k3, k4⟩ := runRace_complete quiet wait rest (.rejected e)
      (.urlRejected e) (fun _ => rfl) hq hlt hw
    rw [hout, hst, hev, k1]
    exact ⟨rfl, k4, k3⟩
  · intro quiet rest hev hq hge
    obtain ⟨k1, k2, k3, _⟩ := runRace_timeout quiet rest hq hge
    rw [hout, hst, hev, k1]
    exact ⟨rfl, k3, k2⟩
  · intro hq hlt
    rw [hout, hst, runRace_quiet _ hq hlt]
    exact ⟨rfl, rfl, rfl⟩

/-- Example: a transfer that only reports progress
during 60000 ms ends with the timeout error and a cancelled task, and the
cancellation error the task reports afterwards changes nothing. -/
theorem uploadPdf_race_spec_witness :
    (uploadPdf soapOnly
        (sampleRuntime 1700000000000
          [.progress 10 100, .elapse 60000, .error ⟨"storage/cancelled"⟩]) .soap).race
      = some (runRace [.progress 10 100, .elapse 60000, .error ⟨"storage/cancelled"⟩]) ∧
    (uploadPdf soapOnly
        (sampleRuntime 1700000000000
          [.progress 10 100, .elapse 60000, .error ⟨"storage/cancelled"⟩]) .soap).outcome
      = .threw timeoutError ∧
    (runRace [.progress 10 100, .elapse 60000, .error ⟨"storage/cancelled"⟩]).cancelled = true ∧
    (runRace [.progress 10 100, .elapse 60000, .error ⟨"storage/cancelled"⟩]).settledAt
      = some 60000 :=
  ⟨by decide,
    (uploadPdf_race_spec soapOnly
      (sampleRuntime 1700000000000
        [.progress 10 100, .elapse 60000, .error ⟨"storage/cancelled"⟩]) .soap
      (runRace [.progress 10 100, .elapse 60000, .error ⟨"storage/cancelled"⟩])
      (by decide)).2.2.2.1 [.progress 10 100, .elapse 60000] [.error ⟨"storage/cancelled"⟩]
      rfl (by decide) (by decide)⟩

/-! ## Storage paths of two uploads -/

/-- An upload of a selected document by a signed-in owner reaches line 112 with
the path built from the owner, the clock and the display name. -/
theorem uploadPdf_storagePath (documents : Documents) (rt : Runtime) (T : DocType)
    (doc : DocumentRef) (uid : String) (hd : documents.get T = some doc)
    (hu : rt.currentUser = some uid) :
    (uploadPdf documents rt T).storagePath
      = some (storagePath uid (rt.upload T).now doc.name) := by
  unfold uploadPdf
  simp only [hd, hu]
  split
  · rfl
  · split
    · rfl
    · split <;> rfl

/-- C7, amended. Two uploads of the same document reference by the same owner
compute the same storage path exactly when both read the same value from
`Date.now()`; with different readings the paths differ. -/
theorem uploadPdf_storagePath_eq_iff (documents1 documents2 : Documents) (rt1 rt2 : Runtime)
    (T1 T2 : DocType) (doc : DocumentRef) (uid : String)
    (hd1 : documents1.get T1 = some doc) (hd2 : documents2.get T2 = some doc)
    (hu1 : rt1.currentUser = some uid) (hu2 : rt2.currentUser = some uid) :
    ((uploadPdf documents1 rt1 T1).storagePath = (uploadPdf documents2 rt2 T2).storagePath
      ↔ (rt1.upload T1).now = (rt2.upload T2).now) ∧
    ((rt1.upload T1).now ≠ (rt2.upload T2).now →
      (uploadPdf documents1 rt1 T1).storagePath
        ≠ (uploadPdf documents2 rt2 T2).storagePath) := by
  have key : (uploadPdf documents1 rt1 T1).storagePath
      = (uploadPdf documents2 rt2 T2).storagePath
      ↔ (rt1.upload T1).now = (rt2.upload T2).now := by
    rw [uploadPdf_storagePath documents1 rt1 T1 doc uid hd1 hu1,
      uploadPdf_storagePath documents2 rt2 T2 doc uid hd2 hu2, Option.some.injEq]
    constructor
    · intro h
      have hd := congrArg String.data h
      rw [storagePath_data, storagePath_data] at hd
      have hsplit := append_sep_inj '_' _ _ _ _
        (underscore_not_mem_numberToString _) (underscore_not_mem_numberToString _)
        (List.append_cancel_left hd)
      exact numberToString_injective _ _ (String.ext hsplit.1)
    · intro h
      rw [h]
  exact ⟨key, fun hne heq => hne (key.1 heq)⟩

/-- Example: the same document uploaded at
`1700000000000` and at `1700000000001`. -/
theorem uploadPdf_storagePath_eq_iff_witness :
    soapOnly.get .soap = some sampleDoc ∧
    (sampleRuntime 1700000000000 []).currentUser = some "u1" ∧
    (sampleRuntime 1700000000001 []).currentUser = some "u1" ∧
    (uploadPdf soapOnly (sampleRuntime 1700000000000 []) .soap).storagePath
      ≠ (uploadPdf soapOnly (sampleRuntime 1700000000001 []) .soap).storagePath :=
  ⟨rfl, rfl, rfl,
    (uploadPdf_storagePath_eq_iff soapOnly soapOnly (sampleRuntime 1700000000000 [])
      (sampleRuntime 1700000000001 []) .soap .soap sampleDoc "u1" rfl rfl rfl rfl).2
      (by decide)⟩

/-- C7, as stated, fails: the same document reference uploaded twice by the
same owner, both uploads reading `1700000000000` from `Date.now()`, gives the
same storage path twice, whatever happens to the two transfers. -/
theorem same_clock_same_path_counterexample :
    (uploadPdf soapOnly (sampleRuntime 1700000000000 [.complete, .urlResolved "https://store/a"])
        .soap).storagePath
      = (uploadPdf soapOnly
          (sampleRuntime 1700000000000 [.complete, .urlResolved "https://store/b"])
          .soap).storagePath ∧
    (uploadPdf soapOnly (sampleRuntime 1700000000000 [.complete, .urlResolved "https://store/a"])
        .soap).storagePath
      = some "vehicle_documents/u1/1700000000000_soap.pdf" ∧
    (uploadPdf soapOnly (sampleRuntime 1700000000000 [.complete, .urlResolved "https://store/b"])
        .soap).storagePath
      = some "vehicle_documents/u1/1700000000000_soap.pdf" := by
  decide

/-! ## Document selection -/

theorem Documents.get_set_same (d : Documents) (t : DocType) (v : Option DocumentRef) :
    (d.set t v).get t = v := by
  cases t <;> rfl

theorem Documents.get_set_other (d : Documents) (t t1 : DocType) (v : Option DocumentRef)
    (h : t1 ≠ t) : (d.set t v).get t1 = d.get t1 := by
  cases t <;> cases t1 <;> first | rfl | exact absurd rfl h

/-- C8. When the picker resolves with at least one file, `pickDocument` puts
`{uri, name}` of the first file into slot `T`, whatever the slot held, keeps the
other slots and shows nothing; when the picker is cancelled the state is kept
and nothing is shown; when the picker fails otherwise (or resolves with an
empty array) the state is kept and the error alert is shown. -/
theorem pickDocument_spec (prev : Documents) (T : DocType) :
    (∀ (file : PickedFile) (more : List PickedFile),
      ((pickDocument T (.resolved (file :: more)) prev).1.get T
          = some { uri := file.uri, name := file.name }) ∧
      (∀ T1 : DocType, T1 ≠ T →
        (pickDocument T (.resolved (file :: more)) prev).1.get T1 = prev.get T1) ∧
      (pickDocument T (.resolved (file :: more)) prev).2 = none) ∧
    pickDocument T (.rejected true) prev = (prev, none) ∧
    pickDocument T (.rejected false) prev
      = (prev, some ⟨"Error", "No se pudo seleccionar el documento", none⟩) ∧
    pickDocument T (.resolved []) prev
      = (prev, some ⟨"Error", "No se pudo seleccionar el documento", none⟩) := by
  refine ⟨?_, rfl, rfl, rfl⟩
  intro file more
  refine ⟨?_, ?_, rfl⟩
  · simp [pickDocument, Documents.get_set_same]
  · intro T1 h
    simp [pickDocument, Documents.get_set_other _ _ _ _ h]

/-! ## `parseInt` on the values of the year picker -/

theorem isDecimalDigit_facts (c : Char) (h : isDecimalDigit c = true) :
    isStrWhiteSpace c = false ∧ c ≠ '-' ∧ c ≠ '+' := by
  simp only [isDecimalDigit, Bool.and_eq_true, decide_eq_true_eq] at h
  refine ⟨?_, ?_, ?_⟩
  · simp only [isStrWhiteSpace, Bool.or_eq_false_iff, Bool.and_eq_false_iff,
      decide_eq_false_iff_not]
    omega
  · rintro rfl
    revert h
    decide
  · rintro rfl
    revert h
    decide

/-- The function `parseInt` gives back a non-negative integer Number. -/
theorem parseInt_num (n : Int) (h : 0 ≤ n) : parseInt (.num n) = some n := by
  have hs : (JsValue.num n).toStr = numberToString n.natAbs := by
    simp [JsValue.toStr, numberToString, not_lt.2 h]
  obtain ⟨hne, hdig, hval⟩ := numberToString_spec n.natAbs
  unfold parseInt
  rw [hs]
  generalize (numberToString n.natAbs).data = ds at hne hdig hval
  cases ds with
  | nil => exact absurd rfl hne
  | cons c tl =>
    obtain ⟨h1, h2, h3⟩ := isDecimalDigit_facts c (hdig c (List.mem_cons_self _ _))
    have htw : (c :: tl).takeWhile isDecimalDigit = c :: tl :=
      List.takeWhile_eq_self_iff.2 hdig
    have hv : ((digitsValue (c :: tl) : Nat) : Int) = n := by
      rw [hval]
      exact Int.natAbs_of_nonneg h
    simp only [List.dropWhile, h1, h2, h3, if_false, htw, List.isEmpty_cons, Bool.false_eq_true,
      hv]

/-! ## The upload loop -/

theorem DocumentUrls.get_set (u : DocumentUrls) (t T : DocType) (url : String) :
    (u.set t url).get T = if T = t then some url else u.get T := by
  cases t <;> cases T <;> rfl

theorem uploadCall_eq (documents : Documents) (rt : Runtime) (t T : DocType) (o : Settled) :
    uploadCall documents rt t = .uploadPdf T o ↔
      t = T ∧ (uploadPdf documents rt t).outcome = o := by
  simp [uploadCall]

theorem returns_iff (documents : Documents) (rt : Runtime) (t : DocType) :
    returns documents rt t = true ↔ ∃ url, (uploadPdf documents rt t).outcome = .returned url := by
  unfold returns
  cases (uploadPdf documents rt t).outcome <;> simp

/-- Either every element satisfies `p`, or the list splits at the first element
that does not. -/
theorem all_or_first_failure {α : Type} (p : α → Bool) : ∀ l : List α,
    (∀ x ∈ l, p x = true) ∨
    ∃ before t after, l = before ++ t :: after ∧ (∀ b ∈ before, p b = true) ∧ p t = false := by
  intro l
  induction l with
  | nil => left; simp
  | cons a l ih =>
    cases hpa : p a with
    | false => right; exact ⟨[], a, l, rfl, by simp, hpa⟩
    | true =>
      rcases ih with h | ⟨before, t, after, hl, hb, ht⟩
      · left
        intro x hx
        rcases List.mem_cons.1 hx with rfl | hx
        · exact hpa
        · exact h x hx
      · right
        refine ⟨a :: before, t, after, by rw [hl]; rfl, ?_, ht⟩
        intro b hb1
        rcases List.mem_cons.1 hb1 with rfl | hb1
        · exact hpa
        · exact hb b hb1

/-- When every selected upload returns, the loop calls `uploadPdf` once for each
selected slot, in order, and runs to its end. -/
theorem uploadLoop_all_return (documents : Documents) (rt : Runtime) :
    ∀ (ts : List DocType) (urls : DocumentUrls),
    (∀ t ∈ ts.filter (fun t => (documents.get t).isSome), returns documents rt t = true) →
    (uploadLoop documents rt ts urls).1
        = (ts.filter (fun t => (documents.get t).isSome)).map (uploadCall documents rt) ∧
      ∃ urls1, (uploadLoop documents rt ts urls).2 = some urls1 := by
  intro ts
  induction ts with
  | nil => intro urls _; exact ⟨rfl, urls, rfl⟩
  | cons t rest ih =>
    intro urls hall
    cases hd : documents.get t with
    | none =>
      have hf : (t :: rest).filter (fun t => (documents.get t).isSome)
          = rest.filter (fun t => (documents.get t).isSome) := by
        simp [List.filter_cons, hd]
      rw [hf] at hall ⊢
      simp only [uploadLoop, hd]
      exact ih urls hall
    | some doc =>
      have hf : (t :: rest).filter (fun t => (documents.get t).isSome)
          = t :: rest.filter (fun t => (documents.get t).isSome) := by
        simp [List.filter_cons, hd]
      rw [hf] at hall ⊢
      obtain ⟨url, hurl⟩ := (returns_iff documents rt t).1 (hall t (List.mem_cons_self _ _))
      simp only [uploadLoop, hd, hurl, List.map_cons]
      obtain ⟨h1, urls1, h2⟩ := ih (storeUrl urls t url)
        (fun x hx => hall x (List.mem_cons_of_mem _ hx))
      refine ⟨?_, urls1, h2⟩
      rw [h1]
      simp [uploadCall, hurl]

/-- When the loop runs to its end, `documentUrls` holds for each slot of the
loop the URL collected for it, and is unchanged elsewhere. -/
theorem uploadLoop_urls (documents : Documents) (rt : Runtime) :
    ∀ (ts : List DocType) (urls urls1 : DocumentUrls),
    (uploadLoop documents rt ts urls).2 = some urls1 →
    ∀ T, urls1.get T =
      if T ∈ ts then
        (match collected documents rt T with
          | some u => some u
          | none => urls.get T)
      else urls.get T := by
  intro ts
  induction ts with
  | nil =>
    intro urls urls1 h T
    simp only [uploadLoop, Option.some.injEq] at h
    simp [h]
  | cons t rest ih =>
    intro urls urls1 h T
    cases hd : documents.get t with
    | none =>
      simp only [uploadLoop, hd] at h
      have hc : collected documents rt t = none := by simp [collected, hd]
      rw [ih urls urls1 h T]
      by_cases hT : T = t
      · subst hT
        simp [hc]
      · simp [hT]
    | some doc =>
      cases ho : (uploadPdf documents rt t).outcome with
      | threw e => simp [uploadLoop, hd, ho] at h
      | pending => simp [uploadLoop, hd, ho] at h
      | returned url =>
        simp only [uploadLoop, hd, ho] at h
        have hstep : ∀ T, (storeUrl urls t url).get T
            = if T = t then
                (match collected documents rt t with
                  | some u => some u
                  | none => urls.get t)
              else urls.get T := by
          intro T
          cases url with
          | none =>
            by_cases hT : T = t
            · subst hT; simp [storeUrl, collected, hd, ho]
            · simp [storeUrl, hT]
          | some u =>
            by_cases hu : u = ""
            · by_cases hT : T = t
              · subst hT; simp [storeUrl, collected, hd, ho, hu]
              · simp [storeUrl, hT, hu]
            · by_cases hT : T = t
              · subst hT; simp [storeUrl, collected, hd, ho, hu, DocumentUrls.get_set]
              · simp [storeUrl, hT, hu, DocumentUrls.get_set]
        rw [ih _ urls1 h T, hstep T]
        by_cases hT : T = t
        · subst hT
          cases hc : collected documents rt T <;> simp
        · simp [hT]

/-- When the first selected upload that does not return is `t`, the loop makes
the uploads before it, the upload of `t`, shows the alert if that upload threw,
and is left. -/
theorem uploadLoop_first_failure (documents : Documents) (rt : Runtime) :
    ∀ (ts : List DocType) (urls : DocumentUrls) (before : List DocType) (t : DocType)
      (after : List DocType),
    ts.filter (fun t => (documents.get t).isSome) = before ++ t :: after →
    (∀ b ∈ before, returns documents rt b = true) → returns documents rt t = false →
    uploadLoop documents rt ts urls
      = (before.map (uploadCall documents rt)
          ++ uploadCall documents rt t :: abortTail documents rt t, none) := by
  intro ts
  induction ts with
  | nil =>
    intro urls before t after h
    simp at h
  | cons x rest ih =>
    intro urls before t after h hb ht
    cases hd : documents.get x with
    | none =>
      have hf : (x :: rest).filter (fun t => (documents.get t).isSome)
          = rest.filter (fun t => (documents.get t).isSome) := by
        simp [List.filter_cons, hd]
      rw [hf] at h
      simp only [uploadLoop, hd]
      exact ih urls before t after h hb ht
    | some doc =>
      have hf : (x :: rest).filter (fun t => (documents.get t).isSome)
          = x :: rest.filter (fun t => (documents.get t).isSome) := by
        simp [List.filter_cons, hd]
      rw [hf] at h
      cases before with
      | nil =>
        simp only [List.nil_append, List.cons.injEq] at h
        obtain ⟨hx, _⟩ := h
        subst hx
        unfold returns at ht
        cases ho : (uploadPdf documents rt x).outcome with
        | returned url => simp [ho] at ht
        | threw e => simp [uploadLoop, hd, ho, uploadCall, abortTail]
        | pending => simp [uploadLoop, hd, ho, uploadCall, abortTail]
      | cons b before1 =>
        simp only [List.cons_append, List.cons.injEq] at h
        obtain ⟨hx, hrest⟩ := h
        subst hx
        obtain ⟨url, hurl⟩ := (returns_iff documents rt x).1 (hb x (List.mem_cons_self _ _))
        simp only [uploadLoop, hd, hurl]
        rw [ih _ before1 t after hrest (fun y hy => hb y (List.mem_cons_of_mem _ hy)) ht]
        simp [uploadCall, hurl]

/-! ## The calls of `registerCar` -/

theorem registerCar_invalid_eq (form : Form) (documents : Documents) (rt : Runtime)
    (h : form.isValid = false) : registerCar form documents rt = [.alert validationAlert] := by
  unfold Form.isValid at h
  unfold registerCar
  cases h1 : form.marca.truthy <;> cases h2 : form.modelo.truthy <;>
    cases h3 : form.anio.truthy <;> cases h4 : form.patente.truthy <;>
    simp [h1, h2, h3, h4] at h ⊢

theorem registerCar_valid_eq (form : Form) (documents : Documents) (rt : Runtime)
    (h : form.isValid = true) :
    registerCar form documents rt
      = (uploadLoop documents rt documentTypes DocumentUrls.empty).1 ++
          (match (uploadLoop documents rt documentTypes DocumentUrls.empty).2 with
            | none => []
            | some urls => afterLoop form rt urls) := by
  unfold Form.isValid at h
  simp only [Bool.and_eq_true] at h
  obtain ⟨⟨⟨h1, h2⟩, h3⟩, h4⟩ := h
  unfold registerCar afterLoop
  simp only [h1, h2, h3, h4, Bool.not_true, Bool.or_self, Bool.false_eq_true, if_false]
  rcases hloop : uploadLoop documents rt documentTypes DocumentUrls.empty with ⟨effects, res⟩
  cases res with
  | none => simp
  | some urls =>
    cases rt.currentUser with
    | none => simp
    | some uid =>
      cases rt.addResult with
      | none => simp
      | some r => cases r <;> simp

theorem mem_selected (documents : Documents) (T : DocType) :
    T ∈ selected documents ↔ (documents.get T).isSome = true := by
  cases T <;> simp [selected, documentTypes]

theorem selected_sorted (documents : Documents) :
    (selected documents).Pairwise (fun a b => a.index < b.index) := by
  refine List.Pairwise.sublist (List.filter_sublist _) ?_
  simp [documentTypes, DocType.index]

theorem afterLoop_no_upload (form : Form) (rt : Runtime) (urls : DocumentUrls) :
    ∀ x ∈ afterLoop form rt urls, x.isUpload = false := by
  intro x hx
  unfold afterLoop at hx
  cases hu : rt.currentUser with
  | none =>
    simp [hu] at hx
    subst hx
    rfl
  | some uid =>
    cases ha : rt.addResult with
    | none =>
      simp [hu, ha] at hx
      subst hx
      rfl
    | some r =>
      cases r <;> simp [hu, ha] at hx <;> rcases hx with rfl | rfl <;> rfl

theorem afterLoop_signed_in (form : Form) (rt : Runtime) (urls : DocumentUrls) (uid : String)
    (hu : rt.currentUser = some uid) :
    ∃ alerts, afterLoop form rt urls
        = .firestoreAdd
            { marca := form.marca, modelo := form.modelo, anio := parseInt form.anio,
              patente := form.patente, documentUrls := urls, userId := uid,
              createdAt := .serverTimestamp } :: alerts ∧
      ∀ a ∈ alerts, a.isUpload = false ∧ a.isAdd = false := by
  unfold afterLoop
  simp only [hu]
  refine ⟨_, rfl, ?_⟩
  intro a ha
  cases hr : rt.addResult with
  | none => simp [hr] at ha
  | some r =>
    cases r <;> simp [hr] at ha <;> subst ha <;> exact ⟨rfl, rfl⟩

theorem abortTail_no_call (documents : Documents) (rt : Runtime) (t : DocType) :
    ∀ x ∈ abortTail documents rt t, x.isUpload = false ∧ x.isAdd = false := by
  intro x hx
  unfold abortTail at hx
  cases ho : (uploadPdf documents rt t).outcome <;> simp [ho] at hx
  subst hx
  exact ⟨rfl, rfl⟩

/-- Calls of a valid form when every selected upload returns. -/
theorem registerCar_all_return (form : Form) (documents : Documents) (rt : Runtime)
    (hvalid : form.isValid = true)
    (hall : ∀ t ∈ selected documents, returns documents rt t = true) :
    ∃ urls, registerCar form documents rt
        = (selected documents).map (uploadCall documents rt) ++ afterLoop form rt urls ∧
      ∀ T, urls.get T = collected documents rt T := by
  obtain ⟨h1, urls, h2⟩ := uploadLoop_all_return documents rt documentTypes DocumentUrls.empty hall
  refine ⟨urls, ?_, ?_⟩
  · rw [registerCar_valid_eq form documents rt hvalid, h1, h2]
    rfl
  · intro T
    rw [uploadLoop_urls documents rt documentTypes DocumentUrls.empty urls h2 T]
    have hmem : T ∈ documentTypes := by cases T <;> simp [documentTypes]
    rw [if_pos hmem]
    cases collected documents rt T with
    | none => cases T <;> rfl
    | some u => rfl

/-- Calls of a valid form when `t` is the first selected upload that does not
return. -/
theorem registerCar_first_failure (form : Form) (documents : Documents) (rt : Runtime)
    (hvalid : form.isValid = true) (before : List DocType) (t : DocType) (after : List DocType)
    (hsel : selected documents = before ++ t :: after)
    (hb : ∀ b ∈ before, returns documents rt b = true) (ht : returns documents rt t = false) :
    registerCar form documents rt
      = before.map (uploadCall documents rt)
          ++ uploadCall documents rt t :: abortTail documents rt t := by
  rw [registerCar_valid_eq form documents rt hvalid,
    uploadLoop_first_failure documents rt documentTypes DocumentUrls.empty before t after hsel hb ht]
  simp

theorem countP_isUpload_map (documents : Documents) (rt : Runtime) (l : List DocType) :
    (l.map (uploadCall documents rt)).countP Effect.isUpload = l.length := by
  induction l with
  | nil => rfl
  | cons a l ih => simp [List.countP_cons, ih, uploadCall, Effect.isUpload]

theorem countP_isAdd_map (documents : Documents) (rt : Runtime) (l : List DocType) :
    (l.map (uploadCall documents rt)).countP Effect.isAdd = 0 := by
  induction l with
  | nil => rfl
  | cons a l ih => simp [List.countP_cons, ih, uploadCall, Effect.isAdd]

theorem countP_eq_zero_of_forall {p : Effect → Bool} (l : List Effect)
    (h : ∀ x ∈ l, p x = false) : l.countP p = 0 := by
  rw [List.countP_eq_zero]
  intro x hx
  simp [h x hx]

/-! ## Validation -/

theorem truthy_of_isMissingOrEmpty (v : JsValue) (h : v.isMissingOrEmpty = true) :
    v.truthy = false := by
  cases v <;> simp_all [JsValue.isMissingOrEmpty, JsValue.truthy]

/-- C2. When one of the fields `marca`, `modelo`, `año`, `patente` is missing or
empty, `registerCar` only shows the alert asking to complete the required
fields: it makes no upload call and no database write, whatever documents are
selected. -/
theorem registerCar_missing_field (form : Form) (documents : Documents) (rt : Runtime)
    (h : form.marca.isMissingOrEmpty = true ∨ form.modelo.isMissingOrEmpty = true ∨
      form.anio.isMissingOrEmpty = true ∨ form.patente.isMissingOrEmpty = true) :
    registerCar form documents rt
        = [.alert ⟨"Error", "Por favor, complete todos los campos obligatorios", none⟩] ∧
      (∀ t o, Effect.uploadPdf t o ∉ registerCar form documents rt) ∧
      (∀ record, Effect.firestoreAdd record ∉ registerCar form documents rt) := by
  have hinv : form.isValid = false := by
    unfold Form.isValid
    rcases h with h | h | h | h <;> simp [truthy_of_isMissingOrEmpty _ h]
  rw [registerCar_invalid_eq form documents rt hinv]
  exact ⟨rfl, by simp, by simp⟩

/-- Example: the initial, empty `patente` with
three selected documents. -/
theorem registerCar_missing_field_witness :
    (JsValue.str "").isMissingOrEmpty = true ∧
    registerCar ⟨.str "Subaru", .str "Impreza", .num 2023, .str ""⟩ allThree soapTimesOut
      = [.alert ⟨"Error", "Por favor, complete todos los campos obligatorios", none⟩] :=
  ⟨rfl,
    (registerCar_missing_field ⟨.str "Subaru", .str "Impreza", .num 2023, .str ""⟩ allThree
      soapTimesOut (Or.inr (Or.inr (Or.inr rfl)))).1⟩

/-! ## Registration without documents -/

/-- C4. For a valid form whose year comes from the picker, with no selected
document and a signed-in user, `registerCar` makes no upload call and exactly
one database write, whose record holds the fields of the form, the year as an
integer, no document URL, the id of the user and the server timestamp
sentinel. -/
theorem registerCar_no_documents (form : Form) (documents : Documents) (rt : Runtime)
    (uid : String) (y Y : Int)
    (hmarca : form.marca.truthy = true) (hmodelo : form.modelo.truthy = true)
    (hpatente : form.patente.truthy = true)
    (hanio : form.anio = .num y) (hyear : y ∈ years Y)
    (huser : rt.currentUser = some uid) (hnone : ∀ t, documents.get t = none) :
    (∃ alerts, registerCar form documents rt
        = .firestoreAdd
            { marca := form.marca, modelo := form.modelo, anio := some y,
              patente := form.patente, documentUrls := ⟨none, none, none⟩, userId := uid,
              createdAt := .serverTimestamp } :: alerts ∧
      ∀ a ∈ alerts, a.isUpload = false ∧ a.isAdd = false) ∧
    (∀ t o, Effect.uploadPdf t o ∉ registerCar form documents rt) ∧
    (registerCar form documents rt).countP Effect.isAdd = 1 := by
  have hy := (mem_years Y y).1 hyear
  have hvalid : form.isValid = true := by
    have : (JsValue.num y).truthy = true := by
      simp [JsValue.truthy]
      omega
    simp [Form.isValid, hmarca, hmodelo, hpatente, hanio, this]
  have hloop : uploadLoop documents rt documentTypes DocumentUrls.empty
      = ([], some DocumentUrls.empty) := by
    simp [uploadLoop, documentTypes, hnone]
  obtain ⟨alerts, hafter, halerts⟩ :=
    afterLoop_signed_in form rt DocumentUrls.empty uid huser
  have heq : registerCar form documents rt
      = .firestoreAdd
          { marca := form.marca, modelo := form.modelo, anio := some y,
            patente := form.patente, documentUrls := ⟨none, none, none⟩, userId := uid,
            createdAt := .serverTimestamp } :: alerts := by
    rw [registerCar_valid_eq form documents rt hvalid, hloop]
    simp only [List.nil_append]
    rw [hafter, hanio, parseInt_num y (by omega)]
    rfl
  refine ⟨⟨alerts, heq, halerts⟩, ?_, ?_⟩
  · intro t o hmem
    rw [heq] at hmem
    rcases List.mem_cons.1 hmem with h | h
    · cases h
    · have := (halerts _ h).1
      simp [Effect.isUpload] at this
  · rw [heq, List.countP_cons,
      countP_eq_zero_of_forall alerts (fun a ha => (halerts a ha).2)]
    rfl

/-- Example: the scenario of the specification,
form `Subaru, Impreza, 2023, ABCD12` with owner `u1`. -/
theorem registerCar_no_documents_witness :
    (2023 : Int) ∈ years 2024 ∧
    (sampleRuntime 1700000000000 []).currentUser = some "u1" ∧
    (∃ alerts, registerCar sampleForm Documents.initial (sampleRuntime 1700000000000 [])
        = .firestoreAdd
            { marca := .str "Subaru", modelo := .str "Impreza", anio := some 2023,
              patente := .str "ABCD12", documentUrls := ⟨none, none, none⟩, userId := "u1",
              createdAt := .serverTimestamp } :: alerts ∧
      ∀ a ∈ alerts, a.isUpload = false ∧ a.isAdd = false) :=
  ⟨(mem_years 2024 2023).2 ⟨by decide, by decide⟩, rfl,
    (registerCar_no_documents sampleForm Documents.initial (sampleRuntime 1700000000000 [])
      "u1" 2023 2024 rfl rfl rfl rfl ((mem_years 2024 2023).2 ⟨by decide, by decide⟩) rfl
      (fun t => by cases t <;> rfl)).1⟩

/-! ## A failing upload -/

theorem not_returns_of_threw (documents : Documents) (rt : Runtime) (t : DocType) (e : JsError)
    (h : (uploadPdf documents rt t).outcome = .threw e) : returns documents rt t = false := by
  simp [returns, h]

theorem upload_mem_map (documents : Documents) (rt : Runtime) (l : List DocType) (T : DocType)
    (o : Settled) (h : Effect.uploadPdf T o ∈ l.map (uploadCall documents rt)) :
    T ∈ l ∧ (uploadPdf documents rt T).outcome = o := by
  obtain ⟨x, hx, hxe⟩ := List.mem_map.1 h
  obtain ⟨rfl, ho⟩ := (uploadCall_eq documents rt x T o).1 hxe
  exact ⟨hx, ho⟩

/-- C1. When `registerCar` makes an upload that throws (or whose promise
rejects), it makes no database write, makes no upload for a slot that comes
later in `permisoCirculacion, soap, revisionTecnica`, and ends with the error
alert whose message names the slot of the failed upload. -/
theorem registerCar_upload_failure (form : Form) (documents : Documents) (rt : Runtime)
    (T : DocType) (e : JsError)
    (hfail : Effect.uploadPdf T (.threw e) ∈ registerCar form documents rt) :
    (∀ record, Effect.firestoreAdd record ∉ registerCar form documents rt) ∧
    (∀ T1 o, T.index < T1.index → Effect.uploadPdf T1 o ∉ registerCar form documents rt) ∧
    (registerCar form documents rt).getLast?
      = some (.alert ⟨"Error",
          "No se pudo subir el documento " ++ T.key ++ ". Por favor, inténtelo de nuevo.",
          none⟩) := by
  cases hv : form.isValid with
  | false =>
    rw [registerCar_invalid_eq form documents rt hv] at hfail
    simp at hfail
  | true =>
    rcases all_or_first_failure (returns documents rt) (selected documents) with
      hall | ⟨before, t, after, hsel, hb, ht⟩
    · obtain ⟨urls, heq, _⟩ := registerCar_all_return form documents rt hv hall
      rw [heq] at hfail
      rcases List.mem_append.1 hfail with h | h
      · obtain ⟨hmem, ho⟩ := upload_mem_map documents rt _ T _ h
        have := hall T hmem
        rw [not_returns_of_threw documents rt T e ho] at this
        cases this
      · have := afterLoop_no_upload form rt urls _ h
        simp [Effect.isUpload] at this
    · have heq := registerCar_first_failure form documents rt hv before t after hsel hb ht
      have hT : t = T ∧ (uploadPdf documents rt t).outcome = .threw e := by
        rw [heq] at hfail
        rcases List.mem_append.1 hfail with h | h
        · obtain ⟨hmem, ho⟩ := upload_mem_map documents rt _ T _ h
          have := hb T hmem
          rw [not_returns_of_threw documents rt T e ho] at this
          cases this
        · rcases List.mem_cons.1 h with h | h
          · exact (uploadCall_eq documents rt t T _).1 h.symm
          · have := (abortTail_no_call documents rt t _ h).1
            simp [Effect.isUpload] at this
      obtain ⟨rfl, ho⟩ := hT
      have htail : abortTail documents rt t = [.alert (uploadAlert t)] := by
        simp [abortTail, ho]
      have hsorted := selected_sorted documents
      rw [hsel, List.pairwise_append] at hsorted
      rw [heq, htail]
      refine ⟨?_, ?_, ?_⟩
      · intro record h
        rcases List.mem_append.1 h with h | h
        · obtain ⟨x, _, hx⟩ := List.mem_map.1 h
          simp [uploadCall] at hx
        · simp [uploadCall] at h
      · intro T1 o hlt h
        rcases List.mem_append.1 h with h | h
        · obtain ⟨hmem, _⟩ := upload_mem_map documents rt _ T1 _ h
          have := hsorted.2.2 T1 hmem t (List.mem_cons_self _ _)
          omega
        · simp only [List.mem_cons, List.mem_singleton, List.not_mem_nil, or_false] at h
          rcases h with h | h
          · obtain ⟨rfl, _⟩ := (uploadCall_eq documents rt t T1 o).1 h.symm
            omega
          · cases h
      · simp [uploadAlert]

/-- Example: three selected documents, the
transfer of `soap` times out after the upload of `permisoCirculacion` succeeded. -/
theorem registerCar_upload_failure_witness :
    Effect.uploadPdf .soap (.threw timeoutError) ∈ registerCar sampleForm allThree soapTimesOut ∧
    (∀ record, Effect.firestoreAdd record ∉ registerCar sampleForm allThree soapTimesOut) ∧
    (∀ o, Effect.uploadPdf .revisionTecnica o ∉ registerCar sampleForm allThree soapTimesOut) ∧
    (registerCar sampleForm allThree soapTimesOut).getLast?
      = some (.alert ⟨"Error",
          "No se pudo subir el documento soap. Por favor, inténtelo de nuevo.", none⟩) :=
  ⟨by decide,
    (registerCar_upload_failure sampleForm allThree soapTimesOut .soap timeoutError
      (by decide)).1,
    fun o =>
      (registerCar_upload_failure sampleForm allThree soapTimesOut .soap timeoutError
        (by decide)).2.1 .revisionTecnica o (by decide),
    (registerCar_upload_failure sampleForm allThree soapTimesOut .soap timeoutError
      (by decide)).2.2⟩

/-! ## The document URLs of the record -/

theorem collected_eq_some (documents : Documents) (rt : Runtime) (T : DocType) (u : String) :
    collected documents rt T = some u ↔
      (documents.get T).isSome = true ∧
        (uploadPdf documents rt T).outcome = .returned (some u) ∧ u ≠ "" := by
  unfold collected
  cases hd : documents.get T with
  | none => simp
  | some doc =>
    cases ho : (uploadPdf documents rt T).outcome with
    | threw e => simp
    | pending => simp
    | returned url =>
      cases url with
      | none => simp
      | some v =>
        by_cases hv : v = ""
        · subst hv
          simp
          intro h1
          exact h1.symm
        · simp [hv]
          rintro rfl
          exact hv

/-- C3, amended. In every record that `registerCar` writes, the entry of a slot
`T` is the URL `u` exactly when a document was selected for `T`, its upload was
made and returned `u`, and `u` is not the empty string. -/
theorem registerCar_record_urls (form : Form) (documents : Documents) (rt : Runtime)
    (record : VehicleRecord)
    (hadd : Effect.firestoreAdd record ∈ registerCar form documents rt) :
    ∀ (T : DocType) (u : String),
      record.documentUrls.get T = some u ↔
        ((documents.get T).isSome = true ∧
          Effect.uploadPdf T (.returned (some u)) ∈ registerCar form documents rt ∧
          u ≠ "") := by
  cases hv : form.isValid with
  | false =>
    rw [registerCar_invalid_eq form documents rt hv] at hadd
    simp at hadd
  | true =>
    rcases all_or_first_failure (returns documents rt) (selected documents) with
      hall | ⟨before, t, after, hsel, hb, ht⟩
    · obtain ⟨urls, heq, hurls⟩ := registerCar_all_return form documents rt hv hall
      have hrec : record.documentUrls = urls := by
        rw [heq] at hadd
        rcases List.mem_append.1 hadd with h | h
        · obtain ⟨x, _, hx⟩ := List.mem_map.1 h
          simp [uploadCall] at hx
        · unfold afterLoop at h
          cases hu : rt.currentUser with
          | none => simp [hu] at h
          | some uid =>
            cases ha : rt.addResult with
            | none =>
              simp [hu, ha] at h
              rw [h]
            | some r =>
              cases r <;> simp [hu, ha] at h <;> rw [h]
      intro T u
      rw [hrec, hurls T, collected_eq_some]
      constructor
      · rintro ⟨h1, h2, h3⟩
        refine ⟨h1, ?_, h3⟩
        rw [heq]
        refine List.mem_append_left _ (List.mem_map.2 ⟨T, (mem_selected documents T).2 h1, ?_⟩)
        simp [uploadCall, h2]
      · rintro ⟨h1, h2, h3⟩
        refine ⟨h1, ?_, h3⟩
        rw [heq] at h2
        rcases List.mem_append.1 h2 with h | h
        · exact (upload_mem_map documents rt _ T _ h).2
        · have := afterLoop_no_upload form rt urls _ h
          simp [Effect.isUpload] at this
    · rw [registerCar_first_failure form documents rt hv before t after hsel hb ht] at hadd
      rcases List.mem_append.1 hadd with h | h
      · obtain ⟨x, _, hx⟩ := List.mem_map.1 h
        simp [uploadCall] at hx
      · rcases List.mem_cons.1 h with h | h
        · simp [uploadCall] at h
        · have := (abortTail_no_call documents rt t _ h).2
          simp [Effect.isAdd] at this

/-- Example: the scenario of the specification
with one document for `soap` whose upload gives `https://store/x`. -/
theorem registerCar_record_urls_witness :
    Effect.firestoreAdd soapRecord
      ∈ registerCar sampleForm soapOnly
          (sampleRuntime 1700000000000 [.complete, .urlResolved "https://store/x"]) ∧
    (soapRecord.documentUrls.get .soap = some "https://store/x" ↔
      ((soapOnly.get .soap).isSome = true ∧
        Effect.uploadPdf .soap (.returned (some "https://store/x"))
          ∈ registerCar sampleForm soapOnly
              (sampleRuntime 1700000000000 [.complete, .urlResolved "https://store/x"]) ∧
        "https://store/x" ≠ "")) :=
  ⟨by decide,
    registerCar_record_urls sampleForm soapOnly
      (sampleRuntime 1700000000000 [.complete, .urlResolved "https://store/x"])
      soapRecord (by decide) .soap "https://store/x"⟩

/-- C3, as stated, fails: a document is selected for `soap`, its upload
completes and `uploadPdf` returns the URL it was given, the empty string; the
record is written without an entry for `soap`. -/
theorem empty_url_not_recorded_counterexample :
    soapOnly.get .soap = some sampleDoc ∧
    (uploadPdf soapOnly (sampleRuntime 1700000000000 [.complete, .urlResolved ""]) .soap).outcome
      = .returned (some "") ∧
    registerCar sampleForm soapOnly (sampleRuntime 1700000000000 [.complete, .urlResolved ""])
      = [.uploadPdf .soap (.returned (some "")),
         .firestoreAdd
            { marca := .str "Subaru", modelo := .str "Impreza", anio := some 2023,
              patente := .str "ABCD12", documentUrls := ⟨none, none, none⟩, userId := "u1",
              createdAt := .serverTimestamp },
         .alert successAlert] := by
  decide

/-! ## The sequence of calls -/

/-- C5, amended. For a valid form and a signed-in user the uploads are made for
the selected slots in the order `permisoCirculacion, soap, revisionTecnica`, one
after the other. When every selected upload returns, there is one upload per
selected document, followed by exactly one database write. Otherwise the
uploads stop with the first one that throws or stays pending: there are as many
uploads as selected slots up to that one, and no database write. One of the two
cases always applies. -/
theorem registerCar_call_sequence (form : Form) (documents : Documents) (rt : Runtime)
    (uid : String) (hvalid : form.isValid = true) (huser : rt.currentUser = some uid) :
    ((∀ t ∈ selected documents, returns documents rt t = true) →
      ∃ record alerts,
        registerCar form documents rt
          = (selected documents).map (uploadCall documents rt)
              ++ .firestoreAdd record :: alerts ∧
        (∀ a ∈ alerts, a.isUpload = false ∧ a.isAdd = false) ∧
        (registerCar form documents rt).countP Effect.isUpload = (selected documents).length ∧
        (registerCar form documents rt).countP Effect.isAdd = 1) ∧
    (∀ (before : List DocType) (t : DocType) (after : List DocType),
      selected documents = before ++ t :: after →
      (∀ b ∈ before, returns documents rt b = true) → returns documents rt t = false →
      registerCar form documents rt
          = before.map (uploadCall documents rt)
              ++ uploadCall documents rt t :: abortTail documents rt t ∧
        (∀ a ∈ abortTail documents rt t, a.isUpload = false ∧ a.isAdd = false) ∧
        (registerCar form documents rt).countP Effect.isUpload = before.length + 1 ∧
        (registerCar form documents rt).countP Effect.isAdd = 0) ∧
    ((∀ t ∈ selected documents, returns documents rt t = true) ∨
      ∃ before t after, selected documents = before ++ t :: after ∧
        (∀ b ∈ before, returns documents rt b = true) ∧ returns documents rt t = false) := by
  refine ⟨?_, ?_, all_or_first_failure (returns documents rt) (selected documents)⟩
  · intro hall
    obtain ⟨urls, heq, _⟩ := registerCar_all_return form documents rt hvalid hall
    obtain ⟨alerts, hafter, halerts⟩ := afterLoop_signed_in form rt urls uid huser
    rw [hafter] at heq
    refine ⟨_, alerts, heq, halerts, ?_, ?_⟩
    · rw [heq, List.countP_append, countP_isUpload_map, List.countP_cons,
        countP_eq_zero_of_forall alerts (fun a ha => (halerts a ha).1)]
      simp [Effect.isUpload]
    · rw [heq, List.countP_append, countP_isAdd_map, List.countP_cons,
        countP_eq_zero_of_forall alerts (fun a ha => (halerts a ha).2)]
      simp [Effect.isAdd]
  · intro before t after hsel hb ht
    have heq := registerCar_first_failure form documents rt hvalid before t after hsel hb ht
    have htail := abortTail_no_call documents rt t
    refine ⟨heq, htail, ?_, ?_⟩
    · rw [heq, List.countP_append, countP_isUpload_map, List.countP_cons,
        countP_eq_zero_of_forall _ (fun a ha => (htail a ha).1)]
      simp [uploadCall, Effect.isUpload]
    · rw [heq, List.countP_append, countP_isAdd_map, List.countP_cons,
        countP_eq_zero_of_forall _ (fun a ha => (htail a ha).2)]
      simp [uploadCall, Effect.isAdd]

/-- Example: the scenario of the specification
with one document for `soap`; exactly one upload call is made, then one write. -/
theorem registerCar_call_sequence_witness :
    sampleForm.isValid = true ∧
    (sampleRuntime 1700000000000 [.complete, .urlResolved "https://store/x"]).currentUser
      = some "u1" ∧
    selected soapOnly = [.soap] ∧
    (∃ record alerts,
      registerCar sampleForm soapOnly
          (sampleRuntime 1700000000000 [.complete, .urlResolved "https://store/x"])
        = (selected soapOnly).map
            (uploadCall soapOnly
              (sampleRuntime 1700000000000 [.complete, .urlResolved "https://store/x"]))
            ++ .firestoreAdd record :: alerts ∧
      (∀ a ∈ alerts, a.isUpload = false ∧ a.isAdd = false) ∧
      (registerCar sampleForm soapOnly
          (sampleRuntime 1700000000000 [.complete, .urlResolved "https://store/x"])).countP
        Effect.isUpload = (selected soapOnly).length ∧
      (registerCar sampleForm soapOnly
          (sampleRuntime 1700000000000 [.complete, .urlResolved "https://store/x"])).countP
        Effect.isAdd = 1) :=
  ⟨rfl, rfl, by decide,
    (registerCar_call_sequence sampleForm soapOnly
      (sampleRuntime 1700000000000 [.complete, .urlResolved "https://store/x"]) "u1" rfl rfl).1
      (by decide)⟩

/-- C5, as stated, fails: with a valid form and three selected documents whose
first transfer reports an error, `registerCar` makes one upload call, not
three. -/
theorem first_upload_fails_counterexample :
    sampleForm.isValid = true ∧
    (selected allThree).length = 3 ∧
    (registerCar sampleForm allThree
        (sampleRuntime 1700000000000 [.error ⟨"storage/retry-limit-exceeded"⟩])).countP
      Effect.isUpload = 1 ∧
    registerCar sampleForm allThree
        (sampleRuntime 1700000000000 [.error ⟨"storage/retry-limit-exceeded"⟩])
      = [.uploadPdf .permisoCirculacion (.threw ⟨"storage/retry-limit-exceeded"⟩),
         .alert (uploadAlert .permisoCirculacion)] := by
  decide

end RegisterCar

